import Mathlib

/-!
Verification development for the solar-tracking motor-control subsystem:
a shallow embedding of the Linux kernel driver (Servo-Stepper.c) and the
user-space controller (main.c), with theorems about pin-group acquisition,
servo pulse generation, stepper commutation, payload parsing and the
direction dispatch loop.
-/

namespace SolarTracking

/-! ### Decimal strings

`renderNat` / `renderInt` model `snprintf(.., "%d", v)`; `kstrtoint` models the
kernel's `kstrtoint(s, 10, &v)` (optional sign, decimal digits, an optional
single trailing newline, whole string consumed, result within the C `int`
range). -/

def digitChar (d : Nat) : Char := Char.ofNat (48 + d)

def digitVal (c : Char) : Nat := c.toNat - 48

def digitsAux : Nat → Nat → List Nat
  | 0, _ => []
  | fuel+1, n => if n = 0 then [] else n % 10 :: digitsAux fuel (n / 10)

def natDigits (n : Nat) : List Nat := digitsAux n n

def valDigits : List Nat → Nat
  | [] => 0
  | d :: L => d + 10 * valDigits L

def renderNat (n : Nat) : List Char :=
  if n = 0 then ['0'] else (natDigits n).reverse.map digitChar

def renderInt (a : Int) : List Char :=
  if a < 0 then '-' :: renderNat a.natAbs else renderNat a.toNat

def parseDigits : List Char → Nat → Nat × List Char
  | c :: rest, acc => if c.isDigit then parseDigits rest (acc * 10 + digitVal c) else (acc, c :: rest)
  | [], acc => (acc, [])

def kstrtointBody (cs : List Char) : List Char :=
  if cs.headD ' ' = '-' ∨ cs.headD ' ' = '+' then cs.tail else cs

def kstrtointVal (cs : List Char) : Int :=
  if cs.headD ' ' = '-' then -((parseDigits (kstrtointBody cs) 0).1 : Int)
  else ((parseDigits (kstrtointBody cs) 0).1 : Int)

def kstrtoint (cs : List Char) : Option Int :=
  if (parseDigits (kstrtointBody cs) 0).2.length = (kstrtointBody cs).length then none
  else if (parseDigits (kstrtointBody cs) 0).2 = [] ∨ (parseDigits (kstrtointBody cs) 0).2 = ['\n'] then
    if -2147483648 ≤ kstrtointVal cs ∧ kstrtointVal cs ≤ 2147483647 then some (kstrtointVal cs)
    else none
  else none

/-! ### Driver data model (Servo-Stepper.c)

`GpioState` holds the observable hardware/driver state: the last commanded
servo angle (module variable `servo_angle`, power-on value 0), the level of the
servo GPIO line, and the levels of the four stepper phase lines
(GPIO `stepper_gpio_base + 0 .. + 3`). An `Event` records one hardware-visible
action in order: a `gpio_set_value` on the servo or a phase line, or a timed
delay (`udelay` / `usleep`, in microseconds). -/

inductive Event
  | setServo (v : Int)
  | setPhase (i : Nat) (v : Int)
  | delay (us : Int)
deriving DecidableEq

structure GpioState where
  servo_angle : Int
  servoLevel : Int
  p0 : Int
  p1 : Int
  p2 : Int
  p3 : Int
deriving DecidableEq

/-- Power-on state: all lines low, `servo_angle = 0`. -/
def initState : GpioState := ⟨0, 0, 0, 0, 0, 0⟩

def setPhaseLevel (s : GpioState) (i : Nat) (v : Int) : GpioState :=
  if i = 0 then { s with p0 := v }
  else if i = 1 then { s with p1 := v }
  else if i = 2 then { s with p2 := v }
  else if i = 3 then { s with p3 := v }
  else s

def getPhaseLevel (s : GpioState) (i : Nat) : Int :=
  if i = 0 then s.p0
  else if i = 1 then s.p1
  else if i = 2 then s.p2
  else if i = 3 then s.p3
  else 0

/-- Error sites of `gpio_write` / `gpio_read`. Every constructor corresponds to
one distinct `return -EINVAL` site in the source (they are distinguishable by
their `pr_err` message); `errnoOf` records that all of them return the same
errno, `-EINVAL = -22`. In the spec's taxonomy: `bufOverflow`, `invalidFormat`,
`stepperFormat` and `notBinary` are `MalformedPayload`, `rangeError` is
`RangeError`, `invalidEndpoint` is `InvalidEndpoint`. -/
inductive DispatchError
  | bufOverflow
  | invalidFormat
  | rangeError
  | stepperFormat
  | notBinary
  | invalidEndpoint
deriving DecidableEq

def errnoOf : DispatchError → Int := fun _ => -22

def SERVO_MIN_ANGLE : Int := 0
def SERVO_MAX_ANGLE : Int := 180
def SERVO_MIN_DUTY : Int := 500
def SERVO_MAX_DUTY : Int := 2500
def SERVO_PERIOD : Int := 20000

/-- PWM duty cycle for a servo angle, exactly as computed in `gpio_write`:
`SERVO_MIN_DUTY + ((value * (SERVO_MAX_DUTY - SERVO_MIN_DUTY)) / SERVO_MAX_ANGLE)`
(C `int` division; the value is guarded to 0..180 so the division is exact
truncation toward zero = Euclidean division here). -/
def dutyCycle (value : Int) : Int :=
  SERVO_MIN_DUTY + value * (SERVO_MAX_DUTY - SERVO_MIN_DUTY) / SERVO_MAX_ANGLE

/-- Write handler of the character devices (`gpio_write` in Servo-Stepper.c).
`minor` is the device minor, `payload` the `count` user bytes. Returns the
result (`ok count` or the error site), the new state and the ordered list of
hardware events. The `copy_from_user` failure path (user memory fault) is not
modelled; `kbuf[count] = 0` means `kstrtoint` sees the bytes up to the first
NUL. -/
def kbufOf (payload : List Char) : List Char :=
  payload.takeWhile (fun c => c ≠ Char.ofNat 0)

def gpio_write (minor : Nat) (payload : List Char) (s : GpioState) :
    Except DispatchError Nat × GpioState × List Event :=
  if payload.length ≥ 32 then (.error .bufOverflow, s, [])
  else
    let kbuf := kbufOf payload
    if minor = 0 then
      match kstrtoint kbuf with
      | none => (.error .invalidFormat, s, [])
      | some value =>
        if value < SERVO_MIN_ANGLE ∨ value > SERVO_MAX_ANGLE then (.error .rangeError, s, [])
        else
          (.ok payload.length,
           { s with servoLevel := 0, servo_angle := value },
           [.setServo 1, .delay (dutyCycle value), .setServo 0,
            .delay (SERVO_PERIOD - dutyCycle value)])
    else if 1 ≤ minor ∧ minor ≤ 4 then
      match kstrtoint kbuf with
      | none => (.error .stepperFormat, s, [])
      | some value =>
        if value ≠ 0 ∧ value ≠ 1 then (.error .notBinary, s, [])
        else (.ok payload.length, setPhaseLevel s (minor - 1) value, [.setPhase (minor - 1) value])
    else (.error .invalidEndpoint, s, [])

/-- Text rendered by `gpio_read` for the servo device
(`"Servo angle: %d degrees\n"`). -/
def servoReadText (s : GpioState) : List Char :=
  "Servo angle: ".data ++ renderInt s.servo_angle ++ " degrees\n".data

/-- Text rendered by `gpio_read` for a stepper phase device
(`"Stepper pin %d: %d\n"` with the minor and the current line level). -/
def stepperReadText (minor : Nat) (s : GpioState) : List Char :=
  "Stepper pin ".data ++ renderNat minor ++ ": ".data
    ++ renderInt (getPhaseLevel s (minor - 1)) ++ "\n".data

/-- Read handler (`gpio_read` in Servo-Stepper.c): EOF after the first read
(`*f_pos > 0`), otherwise renders the state text (truncated to `count` bytes if
the caller's buffer is smaller) and advances `f_pos`. The state is returned
unchanged: the source performs no assignment to any driver state. The 64-byte
`kbuf` of the source never truncates these texts (max length 33 for C ints). -/
def gpio_read (minor count fpos : Nat) (s : GpioState) :
    Except DispatchError (List Char) × Nat × GpioState :=
  if fpos > 0 then (.ok [], fpos, s)
  else if minor = 0 then
    let text := servoReadText s
    let len := min text.length count
    (.ok (text.take len), fpos + len, s)
  else if 1 ≤ minor ∧ minor ≤ 4 then
    let text := stepperReadText minor s
    let len := min text.length count
    (.ok (text.take len), fpos + len, s)
  else (.error .invalidEndpoint, fpos, s)

/-! ### User-space controller (main.c) -/

def SERVO_UP_ANGLE : Int := 90
def SERVO_DOWN_ANGLE : Int := 45
def STEPPER_STEPS : Nat := 50
def STEP_DELAY_US : Int := 2000

/-- Userspace `moveServo`: range-guard 0..180, then `snprintf(buffer, 16, "%d", angle)`
and a write to `/dev/plat_drv0` (minor 0). Returns 0 on success, -1 on error. -/
def moveServo (angle : Int) (s : GpioState) : Int × GpioState × List Event :=
  if angle < 0 ∨ angle > 180 then (-1, s, [])
  else
    let buffer := (renderInt angle).take 15
    let r := gpio_write 0 buffer s
    match r.1 with
    | .error _ => (-1, r.2.1, r.2.2)
    | .ok _ => (0, r.2.1, r.2.2)

/-- Userspace `writeStepperPin`: `snprintf(buffer, 2, "%d", value)` (so at most one
character survives) written to `/dev/plat_drv<minor>`. -/
def writeStepperPin (minor : Nat) (value : Int) (s : GpioState) : Int × GpioState × List Event :=
  let buffer := (renderInt value).take 1
  let r := gpio_write minor buffer s
  match r.1 with
  | .error _ => (-1, r.2.1, r.2.2)
  | .ok _ => (0, r.2.1, r.2.2)

/-- Userspace `resetStepper`: write 0 to all four phase minors 1..4. -/
def resetStepper (s : GpioState) : GpioState × List Event :=
  let r1 := writeStepperPin 1 0 s
  let r2 := writeStepperPin 2 0 r1.2.1
  let r3 := writeStepperPin 3 0 r2.2.1
  let r4 := writeStepperPin 4 0 r3.2.1
  (r4.2.1, r1.2.2 ++ r2.2.2 ++ r3.2.2 ++ r4.2.2)

/-- The 4-phase commutation table `stepSequence` of main.c. -/
def stepSequence : List (List Int) :=
  [[1, 0, 0, 1], [1, 1, 0, 0], [0, 1, 1, 0], [0, 0, 1, 1]]

/-- The index formula of `rotateStepper`:
`clockwise ? (i % 4) : (3 - (i % 4))`. -/
def stepIndex (clockwise : Bool) (i : Nat) : Nat :=
  if clockwise then i % 4 else 3 - i % 4

/-- One loop iteration of `rotateStepper`: write the four entries of the
selected commutation row to phase minors 1..4, then `usleep(STEP_DELAY_US)`. -/
def doStep (s : GpioState) (idx : Nat) : GpioState × List Event :=
  let row := stepSequence.getD idx []
  let r1 := writeStepperPin 1 (row.getD 0 0) s
  let r2 := writeStepperPin 2 (row.getD 1 0) r1.2.1
  let r3 := writeStepperPin 3 (row.getD 2 0) r2.2.1
  let r4 := writeStepperPin 4 (row.getD 3 0) r3.2.1
  (r4.2.1, r1.2.2 ++ r2.2.2 ++ r3.2.2 ++ r4.2.2 ++ [Event.delay STEP_DELAY_US])

/-- The `for (i = 0; i < steps; i++)` loop of `rotateStepper`; the first
argument counts the remaining iterations (`steps - i`), the second is `i`. -/
def rotLoop (clockwise : Bool) : Nat → Nat → GpioState → GpioState × List Event
  | 0, _, s => (s, [])
  | k+1, i, s =>
    let r := doStep s (stepIndex clockwise i)
    let rest := rotLoop clockwise k (i+1) r.1
    (rest.1, r.2 ++ rest.2)

/-- Userspace `rotateStepper(steps, clockwise)`: the step loop, then unconditionally
`resetStepper()`, returning 0. -/
def rotateStepper (steps : Nat) (clockwise : Bool) (s : GpioState) :
    Int × GpioState × List Event :=
  let lp := rotLoop clockwise steps 0 s
  let rs := resetStepper lp.1
  (0, rs.1, lp.2 ++ rs.2)

/-! ### Direction protocol parser and controller loop (main.c) -/

/-- C `isspace` characters, the delimiters of `sscanf`'s `%s`. -/
def isSpaceChar (c : Char) : Bool :=
  c == ' ' || c == '\t' || c == '\n' || c == '\x0b' || c == '\x0c' || c == '\r'

/-- Match a literal character sequence at the head of the input (the literal
`SUN_DIR:` part of the `sscanf` format); returns the remainder on success. -/
def dropPrefixCh : List Char → List Char → Option (List Char)
  | [], rest => some rest
  | _ :: _, [] => none
  | p :: ps, c :: cs => if c = p then dropPrefixCh ps cs else none

/-- Parser `parseSunDirection`: `sscanf(line, "SUN_DIR:%31s", direction)`. The literal
prefix must match exactly; `%31s` then skips whitespace and reads up to 31
non-whitespace characters, succeeding iff at least one character is read.
Returns the stored token, or `none` when `sscanf` did not return 1. -/
def parseSunDirection (line : List Char) : Option (List Char) :=
  match dropPrefixCh "SUN_DIR:".data line with
  | none => none
  | some rest =>
    let afterWs := rest.dropWhile (fun c => isSpaceChar c)
    let tok := (afterWs.takeWhile (fun c => !(isSpaceChar c))).take 31
    if tok = [] then none else some tok

/-- Model of `line[strcspn(line, "\r\n")] = 0` in `main`: truncate at the first CR/LF. -/
def stripLine (line : List Char) : List Char :=
  line.takeWhile (fun c => !(c == '\r' || c == '\n'))

/-- The motor action `main` dispatches for one parsed direction token. -/
inductive MotorAction
  | rotateCall (steps : Nat) (clockwise : Bool)
  | servoCall (angle : Int)
  | noAction
deriving DecidableEq

/-- The accented comparison literal of main.c line 189 as its bytes actually
stand in the file: `48 C3 83 C2 B8 6A 72 65`, i.e. the double-encoded
(mojibake) form of `Højre` — read as text it is the six characters
`H`, `U+00C3`, `U+00B8`, `j`, `r`, `e`, not the properly encoded
`H`, `U+00F8`, `j`, `r`, `e` that the sender emits. -/
def accentedLiteral : List Char :=
  ['H', Char.ofNat 0xC3, Char.ofNat 0xB8, 'j', 'r', 'e']

/-- The `strcmp` chain of `main`: `Venstre` rotates left (counter-clockwise),
the double-encoded accented literal or plain `Hojre` rotates right
(clockwise), `Op` tilts up to 90, `Ned` tilts down to 45, anything else does
nothing. -/
def dispatchDirection (d : List Char) : MotorAction :=
  if d = "Venstre".data then .rotateCall STEPPER_STEPS false
  else if d = accentedLiteral ∨ d = "Hojre".data then .rotateCall STEPPER_STEPS true
  else if d = "Op".data then .servoCall SERVO_UP_ANGLE
  else if d = "Ned".data then .servoCall SERVO_DOWN_ANGLE
  else .noAction

/-- One iteration of the main loop on a received line: strip CR/LF, parse,
dispatch (a line that does not parse is skipped with no action). -/
def processLine (line : List Char) : MotorAction :=
  match parseSunDirection (stripLine line) with
  | none => .noAction
  | some d => dispatchDirection d

/-- Execute one dispatched action against the driver state. -/
def execAction (a : MotorAction) (s : GpioState) : GpioState × List Event :=
  match a with
  | .rotateCall n cw => ((rotateStepper n cw s).2.1, (rotateStepper n cw s).2.2)
  | .servoCall v => ((moveServo v s).2.1, (moveServo v s).2.2)
  | .noAction => (s, [])

/-- Run the controller loop over a finite list of input lines, accumulating the
hardware event trace. -/
def runLines : List (List Char) → GpioState → GpioState × List Event
  | [], s => (s, [])
  | l :: ls, s =>
    let r := execAction (processLine l) s
    let rest := runLines ls r.1
    (rest.1, r.2 ++ rest.2)

/-! ### Driver attach (plat_drv_probe) and its cleanup paths

The probe allocates, in order: the chrdev region, the device class, five
cdev+device endpoints (loop `i = 0..4`), the servo GPIO, and the four stepper
GPIOs (loop `i = 0..3`). `ProbeEnv` gives the return value of each fallible
call (`0` = success, as tested by the source's `if (err)` / `IS_ERR`).
`ProbeState` records what the driver currently holds. The two cleanup labels
share the loop variable `i`, which is modelled explicitly: each cleanup takes
the value `i` has when control reaches the label, and its loop
`for (i = i - 1; i >= 0; i--)` runs over `i-1 .. 0` (no iterations if
`i ≤ 0`). -/

structure ProbeEnv where
  allocRet : Int
  classRet : Int
  cdevRet : List Int
  servoRet : Int
  stepperRet : List Int
deriving DecidableEq

structure ProbeState where
  regionAllocated : Bool
  classExists : Bool
  cdevsAdded : List Nat
  devicesCreated : List Nat
  servoOwned : Bool
  stepperOwned : List Nat
deriving DecidableEq

def probeInit : ProbeState := ⟨false, false, [], [], false, []⟩

/-- The `cleanup_cdev` label: with entry value `i`, destroy device/cdev `i-1`
down to `0`, then destroy the class and unregister the region. -/
def cleanup_cdev (i : Int) (s : ProbeState) : ProbeState :=
  let idxs : List Nat := if i ≤ 0 then [] else (List.range i.toNat).reverse
  let s := idxs.foldl
    (fun st j => { st with devicesCreated := st.devicesCreated.erase j,
                           cdevsAdded := st.cdevsAdded.erase j }) s
  { s with classExists := false, regionAllocated := false }

/-- The `cleanup_gpio` label: with entry value `i`, free stepper GPIO `i-1`
down to `0`, free the servo GPIO, then fall through to `cleanup_cdev` — whose
entry value of `i` is `-1`, because the gpio loop has decremented `i` past
zero. -/
def cleanup_gpio (i : Nat) (s : ProbeState) : ProbeState :=
  let s := (List.range i).reverse.foldl
    (fun st j => { st with stepperOwned := st.stepperOwned.erase j }) s
  cleanup_cdev (-1) { s with servoOwned := false }

/-- The `for (i = 0; i < MAX_DEVICES; i++)` endpoint-creation loop. `fuel`
counts the remaining iterations (`5 - i`). `cdev_add` failure at index `i`
aborts with `(err, i, state)`; `device_create`'s result is not checked in the
source. -/
def addDevs (env : ProbeEnv) : Nat → Nat → ProbeState → Sum (Int × Int × ProbeState) ProbeState
  | 0, _, s => .inr s
  | fuel+1, i, s =>
    if env.cdevRet.getD i 0 ≠ 0 then .inl (env.cdevRet.getD i 0, (i : Int), s)
    else addDevs env fuel (i+1)
      { s with cdevsAdded := s.cdevsAdded ++ [i], devicesCreated := s.devicesCreated ++ [i] }

/-- The `for (i = 0; i < 4; i++)` stepper `gpio_request_one` loop; `fuel` is
`4 - i`. -/
def reqSteppers (env : ProbeEnv) : Nat → Nat → ProbeState → Sum (Int × Nat × ProbeState) ProbeState
  | 0, _, s => .inr s
  | fuel+1, i, s =>
    if env.stepperRet.getD i 0 ≠ 0 then .inl (env.stepperRet.getD i 0, i, s)
    else reqSteppers env fuel (i+1) { s with stepperOwned := s.stepperOwned ++ [i] }

/-- Probe `plat_drv_probe`: returns the function's result and the driver's resulting
resource state. -/
def plat_drv_probe (env : ProbeEnv) : Int × ProbeState :=
  if env.allocRet ≠ 0 then (env.allocRet, probeInit)
  else
    let s1 := { probeInit with regionAllocated := true }
    if env.classRet ≠ 0 then (env.classRet, { s1 with regionAllocated := false })
    else
      let s2 := { s1 with classExists := true }
      match addDevs env 5 0 s2 with
      | .inl (err, i, s) => (err, cleanup_cdev i s)
      | .inr s3 =>
        if env.servoRet ≠ 0 then (env.servoRet, cleanup_cdev 5 s3)
        else
          let s4 := { s3 with servoOwned := true }
          match reqSteppers env 4 0 s4 with
          | .inl (err, i, s) => (err, cleanup_gpio i s)
          | .inr s5 => (0, s5)

/-- Number of GPIO lines currently owned by the driver. -/
def linesOwned (s : ProbeState) : Nat :=
  (if s.servoOwned then 1 else 0) + s.stepperOwned.length

/-! ### Derived notions used in theorem statements -/

/-- Hardware events of one commutation step at table index `idx`: the four
phase writes followed by the inter-step delay. -/
def stepEvents (idx : Nat) : List Event :=
  [.setPhase 0 ((stepSequence.getD idx []).getD 0 0),
   .setPhase 1 ((stepSequence.getD idx []).getD 1 0),
   .setPhase 2 ((stepSequence.getD idx []).getD 2 0),
   .setPhase 3 ((stepSequence.getD idx []).getD 3 0),
   .delay STEP_DELAY_US]

/-- Hardware events of the de-energize pass: a write of 0 to each phase line. -/
def resetEvents : List Event :=
  [.setPhase 0 0, .setPhase 1 0, .setPhase 2 0, .setPhase 3 0]

/-- Hardware events of the single servo pulse for angle `value`: line high for
`dutyCycle value` µs, then low for the rest of the 20000 µs period. -/
def pulseEvents (value : Int) : List Event :=
  [.setServo 1, .delay (dutyCycle value), .setServo 0, .delay (SERVO_PERIOD - dutyCycle value)]

/-- The three-line end-to-end input of the spec's test. -/
def threeLines : List (List Char) :=
  ["SUN_DIR:Venstre\n".data, "SUN_DIR:Op\n".data, "SUN_DIR:Ukendt\n".data]

/-- Modelled from the spec (claim C7's wording), for comparison with the
implementation: a line of exactly the claimed shape, the fixed prefix
`SUN_DIR:` followed by up to 31 non-whitespace characters (and nothing else). -/
def claimedLineShape (line : List Char) : Prop :=
  ∃ tok : List Char, line = "SUN_DIR:".data ++ tok ∧ tok ≠ [] ∧ tok.length ≤ 31 ∧
    ∀ c ∈ tok, isSpaceChar c = false

/-! ### Helper lemmas: decimal rendering round-trips through `kstrtoint` -/

theorem valDigits_digitsAux (fuel : Nat) : ∀ n : Nat, n ≤ fuel → valDigits (digitsAux fuel n) = n := by
  induction fuel with
  | zero => intro n h; interval_cases n; simp [digitsAux, valDigits]
  | succ fuel ih =>
    intro n h
    by_cases h0 : n = 0
    · simp [digitsAux, h0, valDigits]
    · have hdiv : n / 10 ≤ fuel := by
        have : n / 10 < n := Nat.div_lt_self (Nat.pos_of_ne_zero h0) (by norm_num)
        omega
      simp only [digitsAux, h0, if_false, valDigits]
      rw [ih _ hdiv]
      omega

theorem digitsAux_lt (fuel : Nat) : ∀ n d : Nat, d ∈ digitsAux fuel n → d < 10 := by
  induction fuel with
  | zero => intro n d h; simp [digitsAux] at h
  | succ fuel ih =>
    intro n d h
    by_cases h0 : n = 0
    · simp [digitsAux, h0] at h
    · simp only [digitsAux, h0, if_false, List.mem_cons] at h
      rcases h with h | h
      · omega
      · exact ih _ _ h

theorem digitsAux_length (fuel : Nat) : ∀ n k : Nat, n < 10 ^ k → (digitsAux fuel n).length ≤ k := by
  induction fuel with
  | zero => intro n k _; simp [digitsAux]
  | succ fuel ih =>
    intro n k hk
    by_cases h0 : n = 0
    · simp [digitsAux, h0]
    · match k with
      | 0 => simp at hk; omega
      | k+1 =>
        simp only [digitsAux, h0, if_false, List.length_cons]
        have hdiv : n / 10 < 10 ^ k := by
          have := (Nat.div_lt_iff_lt_mul (show 0 < 10 by norm_num)).mpr
            (show n < 10 ^ k * 10 by rw [← pow_succ]; exact hk)
          exact this
        have := ih (n / 10) k hdiv
        omega

theorem digitChar_spec : ∀ d : Nat, d < 10 →
    (digitChar d).isDigit = true ∧ digitVal (digitChar d) = d ∧
    digitChar d ≠ '-' ∧ digitChar d ≠ '+' := by decide

theorem valDigits_append_single (M : List Nat) (d : Nat) :
    valDigits (M ++ [d]) = valDigits M + 10 ^ M.length * d := by
  induction M with
  | nil => simp [valDigits]
  | cons e M ihm =>
    show e + 10 * valDigits (M ++ [d]) = e + 10 * valDigits M + 10 ^ (M.length + 1) * d
    rw [ihm]
    ring

theorem parseDigits_of_map (L : List Nat) : ∀ (rest : List Char) (acc : Nat),
    (∀ d ∈ L, d < 10) →
    (rest = [] ∨ ∃ c r, rest = c :: r ∧ c.isDigit = false) →
    parseDigits (L.map digitChar ++ rest) acc = (acc * 10 ^ L.length + valDigits L.reverse, rest) := by
  induction L with
  | nil =>
    intro rest acc _ hrest
    rcases hrest with h | ⟨c, r, hr, hc⟩
    · subst h; simp [parseDigits, valDigits]
    · subst hr; simp [parseDigits, hc, valDigits]
  | cons d L ih =>
    intro rest acc hL hrest
    have hd : d < 10 := hL d (by simp)
    obtain ⟨hdig, hval, _, _⟩ := digitChar_spec d hd
    simp only [List.map_cons, List.cons_append, parseDigits, hdig, if_true, hval, List.append_eq]
    rw [ih rest (acc * 10 + d) (fun x hx => hL x (by simp [hx])) hrest]
    rw [List.reverse_cons, valDigits_append_single, List.length_reverse]
    congr 1
    simp only [List.length_cons]
    ring

theorem parseDigits_renderNat (n : Nat) : parseDigits (renderNat n) 0 = (n, []) := by
  by_cases h0 : n = 0
  · subst h0; decide
  · have hne : natDigits n ≠ [] := by
      unfold natDigits
      match hn : n, h0 with
      | m+1, _ => simp [digitsAux]
    have hlt : ∀ d ∈ (natDigits n).reverse, d < 10 := by
      intro d hd
      exact digitsAux_lt n n d (List.mem_reverse.mp hd)
    have := parseDigits_of_map (natDigits n).reverse [] 0 hlt (Or.inl rfl)
    rw [List.append_nil] at this
    simp only [renderNat, h0, if_false]
    rw [this, List.reverse_reverse]
    simp [valDigits_digitsAux n n (le_refl n), natDigits]

theorem renderNat_head_digit (n : Nat) :
    ∃ d rest, d < 10 ∧ renderNat n = digitChar d :: rest := by
  by_cases h0 : n = 0
  · exact ⟨0, [], by norm_num, by subst h0; decide⟩
  · have hne : (natDigits n).reverse ≠ [] := by
      simp only [ne_eq, List.reverse_eq_nil_iff]
      unfold natDigits
      match hn : n, h0 with
      | m+1, _ => simp [digitsAux]
    match hL : (natDigits n).reverse with
    | d :: rest =>
      refine ⟨d, rest.map digitChar, ?_, ?_⟩
      · have hmem : d ∈ (natDigits n).reverse := by rw [hL]; exact List.mem_cons_self d rest
        exact digitsAux_lt n n d (List.mem_reverse.mp hmem)
      · simp [renderNat, h0, hL]
    | [] => exact absurd hL hne

theorem kstrtointBody_renderNat (n : Nat) : kstrtointBody (renderNat n) = renderNat n := by
  obtain ⟨d, rest, hd, hr⟩ := renderNat_head_digit n
  obtain ⟨_, _, hm, hp⟩ := digitChar_spec d hd
  have hhead : (renderNat n).headD ' ' = digitChar d := by rw [hr]; rfl
  unfold kstrtointBody
  rw [if_neg (by rw [hhead]; push_neg; exact ⟨hm, hp⟩)]

theorem renderNat_length_pos (n : Nat) : (renderNat n).length ≠ 0 := by
  obtain ⟨d, rest, _, hr⟩ := renderNat_head_digit n
  rw [hr]; simp

theorem kstrtoint_renderNat (n : Nat) (h : n ≤ 2147483647) :
    kstrtoint (renderNat n) = some (n : Int) := by
  obtain ⟨d, rest, hd, hr⟩ := renderNat_head_digit n
  obtain ⟨_, _, hm, hp⟩ := digitChar_spec d hd
  have hhead : (renderNat n).headD ' ' = digitChar d := by rw [hr]; rfl
  have hval : kstrtointVal (renderNat n) = (n : Int) := by
    unfold kstrtointVal
    rw [kstrtointBody_renderNat, parseDigits_renderNat, if_neg (by rw [hhead]; exact hm)]
  unfold kstrtoint
  rw [kstrtointBody_renderNat, parseDigits_renderNat]
  rw [if_neg (by simpa using fun hh => renderNat_length_pos n hh.symm)]
  rw [if_pos (Or.inl rfl), hval]
  rw [if_pos (by constructor <;> omega)]

theorem kstrtoint_renderInt (a : Int) (h1 : -2147483648 ≤ a) (h2 : a ≤ 2147483647) :
    kstrtoint (renderInt a) = some a := by
  by_cases hneg : a < 0
  · have hm : (1 : Nat) ≤ a.natAbs := by omega
    have hri : renderInt a = '-' :: renderNat a.natAbs := by
      simp only [renderInt, hneg, if_true]
    have hhead : (renderInt a).headD ' ' = '-' := by rw [hri]; rfl
    have hbody : kstrtointBody (renderInt a) = renderNat a.natAbs := by
      unfold kstrtointBody
      rw [if_pos (Or.inl hhead), hri, List.tail_cons]
    have hval : kstrtointVal (renderInt a) = a := by
      unfold kstrtointVal
      rw [hbody, parseDigits_renderNat, if_pos hhead]
      omega
    unfold kstrtoint
    rw [hbody, parseDigits_renderNat]
    rw [if_neg (by simpa using fun hh => renderNat_length_pos a.natAbs hh.symm)]
    rw [if_pos (Or.inl rfl), hval]
    rw [if_pos (by constructor <;> omega)]
  · push_neg at hneg
    have : renderInt a = renderNat a.toNat := by
      simp only [renderInt, if_neg (by omega : ¬a < 0)]
    rw [this, kstrtoint_renderNat a.toNat (by omega)]
    congr 1
    omega

theorem renderNat_length_le (n : Nat) (h : n ≤ 9999999999) : (renderNat n).length ≤ 10 := by
  by_cases h0 : n = 0
  · subst h0; decide
  · simp only [renderNat, h0, if_false, List.length_map, List.length_reverse]
    refine digitsAux_length n n 10 ?_
    have hp : (10 : Nat) ^ 10 = 10000000000 := by norm_num
    omega

theorem renderInt_length_le (a : Int) (h1 : -2147483648 ≤ a) (h2 : a ≤ 2147483647) :
    (renderInt a).length ≤ 11 := by
  by_cases hneg : a < 0
  · simp only [renderInt, hneg, if_true, List.length_cons]
    have := renderNat_length_le a.natAbs (by omega)
    omega
  · simp only [renderInt, hneg, if_false]
    have := renderNat_length_le a.toNat (by omega)
    omega

/-! ### Helper lemmas: stepper motor -/

theorem resetStepper_eq (s : GpioState) :
    resetStepper s = ({ s with p0 := 0, p1 := 0, p2 := 0, p3 := 0 }, resetEvents) := rfl

theorem doStep_events (s : GpioState) (idx : Nat) (h : idx < 4) :
    (doStep s idx).2 = stepEvents idx := by
  interval_cases idx <;> rfl

theorem stepIndex_lt_four (cw : Bool) (i : Nat) : stepIndex cw i < 4 := by
  cases cw <;> simp [stepIndex] <;> omega

theorem rotLoop_events (cw : Bool) :
    ∀ (k i : Nat) (s : GpioState),
      (rotLoop cw k i s).2 = ((List.range' i k).map fun j => stepEvents (stepIndex cw j)).flatten := by
  intro k
  induction k with
  | zero => intro i s; simp [rotLoop]
  | succ k ih =>
    intro i s
    show (doStep s (stepIndex cw i)).2 ++ (rotLoop cw k (i+1) (doStep s (stepIndex cw i)).1).2
        = ((List.range' i (k+1)).map fun j => stepEvents (stepIndex cw j)).flatten
    rw [List.range'_succ, List.map_cons, List.flatten_cons,
        doStep_events _ _ (stepIndex_lt_four cw i), ih]

theorem rotateStepper_events (steps : Nat) (cw : Bool) (s : GpioState) :
    (rotateStepper steps cw s).2.2 =
      ((List.range steps).map fun i => stepEvents (stepIndex cw i)).flatten ++ resetEvents := by
  show (rotLoop cw steps 0 s).2 ++ (resetStepper (rotLoop cw steps 0 s).1).2
      = ((List.range steps).map fun i => stepEvents (stepIndex cw i)).flatten ++ resetEvents
  rw [resetStepper_eq, rotLoop_events, List.range_eq_range']

/-! ### Claims C3, C4: stepper commutation order and de-energize pass -/

/-- C3: for every step count `n` and direction, `rotate` applies commutation
row `i % 4` at step `i` when clockwise and row `3 - (i % 4)` when
counter-clockwise (the index formula of `rotateStepper`), the hardware trace
of `rotateStepper` is exactly the per-step rows in that order followed by the
de-energize pass, and for `n = 8` the two directions visit the table rows in
mirrored-index order: `0,1,2,3,0,1,2,3` versus `3,2,1,0,3,2,1,0` (the
sequences of applied phase quadruples are reverses of each other). -/
theorem claim_C3_mirrored_commutation :
    (∀ i : Nat, stepIndex true i = i % 4 ∧ stepIndex false i = 3 - i % 4)
    ∧ (∀ (n : Nat) (cw : Bool) (s : GpioState),
        (rotateStepper n cw s).2.2 =
          ((List.range n).map fun i => stepEvents (stepIndex cw i)).flatten ++ resetEvents)
    ∧ ((List.range 8).map (stepIndex true) = [0, 1, 2, 3, 0, 1, 2, 3])
    ∧ ((List.range 8).map (stepIndex false) = [3, 2, 1, 0, 3, 2, 1, 0])
    ∧ ((List.range 8).map (fun i => stepSequence.getD (stepIndex false i) [])
        = ((List.range 8).map (fun i => stepSequence.getD (stepIndex true i) [])).reverse) := by
  refine ⟨fun i => ⟨rfl, rfl⟩, rotateStepper_events, by decide, by decide, by decide⟩

/-- C4: for every step count and direction, `rotateStepper` ends with the
de-energize pass (a write of 0 to each of the four phase lines is the trace's
suffix), afterwards all four phase lines are low, and `steps = 0` performs no
stepping but still performs the de-energize pass. -/
theorem claim_C4_deenergize :
    ∀ (steps : Nat) (cw : Bool) (s : GpioState),
      ((rotateStepper steps cw s).2.1.p0 = 0 ∧ (rotateStepper steps cw s).2.1.p1 = 0 ∧
       (rotateStepper steps cw s).2.1.p2 = 0 ∧ (rotateStepper steps cw s).2.1.p3 = 0)
      ∧ (∃ pre, (rotateStepper steps cw s).2.2 = pre ++ resetEvents)
      ∧ (rotateStepper 0 cw s).2.2 = resetEvents := by
  intro steps cw s
  refine ⟨⟨?_, ?_, ?_, ?_⟩, ⟨(rotLoop cw steps 0 s).2, rfl⟩, rfl⟩ <;>
    simp [rotateStepper, resetStepper_eq]

/-! ### Claim C5: direction dispatch (corrected) -/

/-- Counterexample to C5 as stated: the claim maps the accented variant of
`Hojre` to `rotate(50, clockwise=true)`, but the comparison literal in main.c
is the double-encoded byte sequence `48 C3 83 C2 B8 6A 72 65`, so the properly
encoded token `Højre` (`H`, `U+00F8`, `j`, `r`, `e`) — the form the
collaborator actually sends — matches nothing and triggers no motor action,
while the mojibake token is the one mapped to rotate-right. -/
theorem claim_C5_dispatch_counterexample :
    "Højre".data = ['H', Char.ofNat 0xF8, 'j', 'r', 'e']
    ∧ "Højre".data ≠ accentedLiteral
    ∧ dispatchDirection "Højre".data = MotorAction.noAction
    ∧ processLine "SUN_DIR:Højre\n".data = MotorAction.noAction
    ∧ dispatchDirection accentedLiteral = MotorAction.rotateCall 50 true := by
  refine ⟨by decide, by decide, by decide, by decide, by decide⟩

/-- C5 (amended): the controller maps each parsed token to exactly one action —
`Venstre` to `rotate(50, false)`; plain `Hojre` or the double-encoded byte
sequence `HÃ¸jre` (the accented literal as it actually stands in main.c) to
`rotate(50, true)`; `Op` to `set_angle(90)`; `Ned` to `set_angle(45)`; and any
other token — including the properly encoded `Højre` — to no motor action.
Feeding the three lines `SUN_DIR:Venstre`, `SUN_DIR:Op`, `SUN_DIR:Ukendt`
produces exactly one `rotate(50, false)` call, one `set_angle(90)` call and no
action for the third line — the resulting hardware trace is the rotate trace
followed by the servo trace and nothing else. -/
theorem claim_C5_dispatch_amended :
    (threeLines.map processLine
       = [MotorAction.rotateCall 50 false, MotorAction.servoCall 90, MotorAction.noAction])
    ∧ dispatchDirection "Venstre".data = MotorAction.rotateCall 50 false
    ∧ dispatchDirection accentedLiteral = MotorAction.rotateCall 50 true
    ∧ dispatchDirection "Hojre".data = MotorAction.rotateCall 50 true
    ∧ dispatchDirection "Op".data = MotorAction.servoCall 90
    ∧ dispatchDirection "Ned".data = MotorAction.servoCall 45
    ∧ dispatchDirection "Højre".data = MotorAction.noAction
    ∧ (∀ d : List Char, d ≠ "Venstre".data → d ≠ accentedLiteral → d ≠ "Hojre".data →
        d ≠ "Op".data → d ≠ "Ned".data → dispatchDirection d = MotorAction.noAction)
    ∧ (∀ s : GpioState, (runLines threeLines s).2
        = (rotateStepper 50 false s).2.2 ++ (moveServo 90 (rotateStepper 50 false s).2.1).2.2) := by
  refine ⟨by decide, by decide, by decide, by decide, by decide, by decide, by decide, ?_, ?_⟩
  · intro d h1 h2 h3 h4 h5
    simp [dispatchDirection, h1, h2, h3, h4, h5]
  · intro s
    have hp1 : processLine "SUN_DIR:Venstre\n".data = MotorAction.rotateCall 50 false := by decide
    have hp2 : processLine "SUN_DIR:Op\n".data = MotorAction.servoCall 90 := by decide
    have hp3 : processLine "SUN_DIR:Ukendt\n".data = MotorAction.noAction := by decide
    simp [runLines, threeLines, hp1, hp2, hp3, execAction]

/-- Witness for C5 (amended) at two concrete unmapped tokens: an unknown word
and the properly encoded accented `Højre`. -/
theorem claim_C5_dispatch_amended_witness :
    dispatchDirection "Ukendt".data = MotorAction.noAction
    ∧ dispatchDirection "Højre".data = MotorAction.noAction :=
  ⟨claim_C5_dispatch_amended.2.2.2.2.2.2.2.1 "Ukendt".data (by decide) (by decide) (by decide)
     (by decide) (by decide),
   claim_C5_dispatch_amended.2.2.2.2.2.2.2.1 "Højre".data (by decide) (by decide) (by decide)
     (by decide) (by decide)⟩

/-! ### Helper lemmas: servo writes through the driver -/

theorem takeWhile_of_all (p : Char → Bool) :
    ∀ L : List Char, (∀ c ∈ L, p c = true) → L.takeWhile p = L := by
  intro L
  induction L with
  | nil => intro _; rfl
  | cons c L ih =>
    intro h
    rw [List.takeWhile_cons, if_pos (h c (by simp)), ih (fun x hx => h x (by simp [hx]))]

theorem renderNat_chars (n : Nat) : ∀ c ∈ renderNat n, ∃ d, d < 10 ∧ c = digitChar d := by
  intro c hc
  by_cases h0 : n = 0
  · subst h0
    simp [renderNat] at hc
    exact ⟨0, by norm_num, by rw [hc]; rfl⟩
  · simp only [renderNat, h0, if_false, List.mem_map] at hc
    obtain ⟨d, hd, hcd⟩ := hc
    exact ⟨d, digitsAux_lt n n d (List.mem_reverse.mp hd), hcd.symm⟩

theorem digitChar_ne_nul : ∀ d : Nat, d < 10 → digitChar d ≠ Char.ofNat 0 := by decide

theorem kbufOf_renderInt (a : Int) : kbufOf (renderInt a) = renderInt a := by
  apply takeWhile_of_all
  intro c hc
  have : c ≠ Char.ofNat 0 := by
    by_cases hneg : a < 0
    · simp only [renderInt, hneg, if_true, List.mem_cons] at hc
      rcases hc with hc | hc
      · subst hc; decide
      · obtain ⟨d, hd, hcd⟩ := renderNat_chars _ c hc
        subst hcd; exact digitChar_ne_nul d hd
    · simp only [renderInt, hneg, if_false] at hc
      obtain ⟨d, hd, hcd⟩ := renderNat_chars _ c hc
      subst hcd; exact digitChar_ne_nul d hd
  simpa using this

/-- Reduction of a servo write whose payload is the decimal rendering of an
`int` angle: the driver parses back exactly that angle, and either rejects it
(out of range) or emits the single pulse and records the angle. -/
theorem gpio_write_renderInt (a : Int) (s : GpioState)
    (h1 : -2147483648 ≤ a) (h2 : a ≤ 2147483647) :
    gpio_write 0 (renderInt a) s =
      if a < 0 ∨ a > 180 then (.error .rangeError, s, [])
      else (.ok (renderInt a).length, { s with servoLevel := 0, servo_angle := a },
            pulseEvents a) := by
  have hlen : ¬((renderInt a).length ≥ 32) := by
    have := renderInt_length_le a h1 h2
    omega
  by_cases hr : a < 0 ∨ a > 180
  · have hr' : a < SERVO_MIN_ANGLE ∨ a > SERVO_MAX_ANGLE := by
      simpa [SERVO_MIN_ANGLE, SERVO_MAX_ANGLE] using hr
    rw [if_pos hr]
    simp [gpio_write, hlen, kbufOf_renderInt, kstrtoint_renderInt a h1 h2, hr']
  · have hr' : ¬(a < SERVO_MIN_ANGLE ∨ a > SERVO_MAX_ANGLE) := by
      simpa [SERVO_MIN_ANGLE, SERVO_MAX_ANGLE] using hr
    rw [if_neg hr]
    simp [gpio_write, hlen, kbufOf_renderInt, kstrtoint_renderInt a h1 h2, hr', pulseEvents]

/-! ### Claims C2, C8: servo angle range and pulse arithmetic -/

/-- C2: for every representable integer angle `a` with `0 ≤ a ≤ 180`, the
servo write (a write of the decimal rendering of `a` to endpoint 0) succeeds
and afterwards `servo_angle = a`; for every representable `a` outside 0..180
it fails at the range-check site (`-EINVAL`), emits no hardware event (no
pulse) and leaves the state unchanged. -/
theorem claim_C2_servo_range (a : Int) (s : GpioState)
    (h1 : -2147483648 ≤ a) (h2 : a ≤ 2147483647) :
    (0 ≤ a → a ≤ 180 →
      gpio_write 0 (renderInt a) s
        = (.ok (renderInt a).length, { s with servoLevel := 0, servo_angle := a },
           pulseEvents a))
    ∧ (a < 0 ∨ 180 < a →
      gpio_write 0 (renderInt a) s = (.error .rangeError, s, [])) := by
  constructor
  · intro ha hb
    rw [gpio_write_renderInt a s h1 h2, if_neg (by omega)]
  · intro hr
    rw [gpio_write_renderInt a s h1 h2, if_pos (by omega)]

/-- Witness for C2: angle 90 succeeds and records 90; angle 200 is rejected
with no pulse and unchanged state. -/
theorem claim_C2_servo_range_witness :
    gpio_write 0 (renderInt 90) initState
      = (.ok (renderInt 90).length, { initState with servoLevel := 0, servo_angle := 90 },
         pulseEvents 90)
    ∧ gpio_write 0 (renderInt 200) initState = (.error .rangeError, initState, []) :=
  ⟨(claim_C2_servo_range 90 initState (by decide) (by decide)).1 (by decide) (by decide),
   (claim_C2_servo_range 200 initState (by decide) (by decide)).2 (by decide)⟩

/-- C8: for every valid angle `a` in 0..180 the pulse is computed by exact
integer arithmetic as `duty = 500 + a * (2500 - 500) / 180`, the servo line is
driven high for `duty` units then low for `20000 - duty` units, and
`500 ≤ duty ≤ 2500` with `duty = 2500` reached exactly at `a = 180`. -/
theorem claim_C8_duty_cycle (a : Int) (s : GpioState) (h1 : 0 ≤ a) (h2 : a ≤ 180) :
    (gpio_write 0 (renderInt a) s).2.2 = pulseEvents a
    ∧ pulseEvents a
        = [.setServo 1, .delay (dutyCycle a), .setServo 0, .delay (20000 - dutyCycle a)]
    ∧ dutyCycle a = 500 + a * (2500 - 500) / 180
    ∧ 500 ≤ dutyCycle a ∧ dutyCycle a ≤ 2500
    ∧ (dutyCycle a = 2500 ↔ a = 180) := by
  have hd : dutyCycle a = 500 + a * 2000 / 180 := by
    simp [dutyCycle, SERVO_MIN_DUTY, SERVO_MAX_DUTY, SERVO_MAX_ANGLE]
  refine ⟨?_, rfl, by rw [hd]; norm_num, ?_, ?_, ?_⟩
  · rw [gpio_write_renderInt a s (by omega) (by omega), if_neg (by omega)]
  · rw [hd]; omega
  · rw [hd]; omega
  · rw [hd]; constructor
    · intro h; omega
    · intro h; subst h; decide

/-- Witness for C8 at angle 180 (maximum duty) on the power-on state. -/
theorem claim_C8_duty_cycle_witness :
    (gpio_write 0 (renderInt 180) initState).2.2 = pulseEvents 180
    ∧ dutyCycle 180 = 2500 :=
  ⟨(claim_C8_duty_cycle 180 initState (by decide) (by decide)).1,
   ((claim_C8_duty_cycle 180 initState (by decide) (by decide)).2.2.2.2.2).mpr rfl⟩

/-! ### Claim C6: write error paths have no side effect -/

/-- C6: for every write whose byte count passes the driver's 32-byte buffer
check, an endpoint id outside 0..4 fails at the invalid-endpoint site; a
payload that does not parse as a decimal integer fails at the format site
(servo) or the stepper-format site (phases); a phase payload parsing to a
value other than 0 or 1 fails at the not-binary site; in every such case the
state is unchanged, no hardware event is emitted, and every error site
returns the same errno `-EINVAL = -22`. -/
theorem claim_C6_write_errors (minor : Nat) (payload : List Char) (s : GpioState)
    (hlen : payload.length < 32) :
    (5 ≤ minor → gpio_write minor payload s = (.error .invalidEndpoint, s, []))
    ∧ (minor = 0 → kstrtoint (kbufOf payload) = none →
        gpio_write minor payload s = (.error .invalidFormat, s, []))
    ∧ (1 ≤ minor → minor ≤ 4 → kstrtoint (kbufOf payload) = none →
        gpio_write minor payload s = (.error .stepperFormat, s, []))
    ∧ (∀ v : Int, 1 ≤ minor → minor ≤ 4 → kstrtoint (kbufOf payload) = some v →
        v ≠ 0 → v ≠ 1 → gpio_write minor payload s = (.error .notBinary, s, []))
    ∧ (∀ e : DispatchError, errnoOf e = -22) := by
  refine ⟨?_, ?_, ?_, ?_, fun e => rfl⟩
  · intro h5
    unfold gpio_write
    rw [if_neg (by omega)]
    simp only [if_neg (by omega : ¬minor = 0), if_neg (by omega : ¬(1 ≤ minor ∧ minor ≤ 4))]
  · intro h0 hk
    subst h0
    unfold gpio_write
    rw [if_neg (by omega)]
    simp only [if_pos rfl, hk, if_true, eq_self_iff_true]
  · intro hge hle hk
    unfold gpio_write
    rw [if_neg (by omega)]
    simp only [if_neg (by omega : ¬minor = 0), if_pos (⟨hge, hle⟩ : 1 ≤ minor ∧ minor ≤ 4), hk]
  · intro v hge hle hk hv0 hv1
    unfold gpio_write
    rw [if_neg (by omega)]
    simp only [if_neg (by omega : ¬minor = 0), if_pos (⟨hge, hle⟩ : 1 ≤ minor ∧ minor ≤ 4), hk]
    rw [if_pos ⟨hv0, hv1⟩]

/-- Witness for C6: endpoint 7 rejected; non-numeric servo payload rejected;
non-numeric phase payload rejected; phase payload `5` rejected. -/
theorem claim_C6_write_errors_witness :
    gpio_write 7 "1".data initState = (.error .invalidEndpoint, initState, [])
    ∧ gpio_write 0 "abc".data initState = (.error .invalidFormat, initState, [])
    ∧ gpio_write 2 "abc".data initState = (.error .stepperFormat, initState, [])
    ∧ gpio_write 2 "5".data initState = (.error .notBinary, initState, []) :=
  ⟨(claim_C6_write_errors 7 "1".data initState (by decide)).1 (by decide),
   (claim_C6_write_errors 0 "abc".data initState (by decide)).2.1 rfl (by decide),
   (claim_C6_write_errors 2 "abc".data initState (by decide)).2.2.1 (by decide) (by decide)
     (by decide),
   (claim_C6_write_errors 2 "5".data initState (by decide)).2.2.2.1 5 (by decide) (by decide)
     (by decide) (by decide) (by decide)⟩

/-! ### Claim C9: read renders state without mutating it -/

/-- C9: `gpio_read` never mutates the driver state (for every minor, count and
file position the state comes back unchanged), and on a first read
(`fpos = 0`) with a buffer large enough for the text, endpoint 0 returns
`"Servo angle: <n> degrees\n"` with the last commanded angle and endpoints
1..4 return `"Stepper pin <id>: <level>\n"` with the current level of that
phase line. -/
theorem claim_C9_read_pure (minor count fpos : Nat) (s : GpioState) :
    ((gpio_read minor count fpos s).2.2 = s)
    ∧ (fpos = 0 → (servoReadText s).length ≤ count →
        (gpio_read 0 count fpos s).1 = .ok (servoReadText s))
    ∧ (∀ m : Nat, 1 ≤ m → m ≤ 4 → fpos = 0 → (stepperReadText m s).length ≤ count →
        (gpio_read m count fpos s).1 = .ok (stepperReadText m s)) := by
  refine ⟨?_, ?_, ?_⟩
  · unfold gpio_read
    split_ifs <;> rfl
  · intro h0 hcount
    subst h0
    unfold gpio_read
    rw [if_neg (by omega), if_pos rfl]
    simp only [min_eq_left hcount, List.take_length]
  · intro m hge hle h0 hcount
    subst h0
    unfold gpio_read
    rw [if_neg (by omega), if_neg (by omega : ¬m = 0),
        if_pos (⟨hge, hle⟩ : 1 ≤ m ∧ m ≤ 4)]
    simp only [min_eq_left hcount, List.take_length]

/-- Witness for C9 on a concrete state: angle 90 recorded, phase line 1 high. -/
theorem claim_C9_read_pure_witness :
    (gpio_read 0 64 0 ⟨90, 0, 0, 1, 0, 0⟩).1 = .ok (servoReadText ⟨90, 0, 0, 1, 0, 0⟩)
    ∧ (gpio_read 2 64 0 ⟨90, 0, 0, 1, 0, 0⟩).1 = .ok (stepperReadText 2 ⟨90, 0, 0, 1, 0, 0⟩)
    ∧ servoReadText ⟨90, 0, 0, 1, 0, 0⟩ = "Servo angle: 90 degrees\n".data
    ∧ stepperReadText 2 ⟨90, 0, 0, 1, 0, 0⟩ = "Stepper pin 2: 1\n".data :=
  ⟨(claim_C9_read_pure 0 64 0 ⟨90, 0, 0, 1, 0, 0⟩).2.1 rfl (by decide),
   (claim_C9_read_pure 2 64 0 ⟨90, 0, 0, 1, 0, 0⟩).2.2 2 (by decide) (by decide) rfl (by decide),
   by decide, by decide⟩

/-! ### Helper lemmas: the line parser -/

theorem dropPrefixCh_append (p : List Char) :
    ∀ rest : List Char, dropPrefixCh p (p ++ rest) = some rest := by
  induction p with
  | nil => intro rest; rfl
  | cons c p ih => intro rest; simp [dropPrefixCh, ih]

theorem dropPrefixCh_eq_some (p : List Char) :
    ∀ (line r : List Char), dropPrefixCh p line = some r → line = p ++ r := by
  induction p with
  | nil =>
    intro line r h
    simp only [dropPrefixCh, Option.some_inj] at h
    simp [h]
  | cons c p ih =>
    intro line r h
    match line with
    | [] => exact absurd h (by simp [dropPrefixCh])
    | x :: xs =>
      simp only [dropPrefixCh] at h
      by_cases hx : x = c
      · rw [if_pos hx] at h
        rw [hx, ih xs r h]
        rfl
      · rw [if_neg hx] at h
        exact absurd h (by simp)

theorem takeWhile_append_stop (p : Char → Bool) :
    ∀ (L rest : List Char), (∀ c ∈ L, p c = true) →
      (rest = [] ∨ ∃ c r, rest = c :: r ∧ p c = false) →
      (L ++ rest).takeWhile p = L := by
  intro L
  induction L with
  | nil =>
    intro rest _ hrest
    rcases hrest with h | ⟨c, r, hr, hc⟩
    · subst h; rfl
    · subst hr; simp [List.takeWhile_cons, hc]
  | cons c L ih =>
    intro rest hL hrest
    rw [List.cons_append, List.takeWhile_cons, if_pos (hL c (by simp))]
    rw [ih rest (fun x hx => hL x (by simp [hx])) hrest]

theorem dropWhile_of_all (p : Char → Bool) :
    ∀ L : List Char, (∀ c ∈ L, p c = true) → L.dropWhile p = [] := by
  intro L
  induction L with
  | nil => intro _; rfl
  | cons c L ih =>
    intro h
    rw [List.dropWhile_cons, if_pos (h c (by simp)), ih (fun x hx => h x (by simp [hx]))]

/-! ### Claim C7: the accepted line shape (corrected) -/

/-- Counterexample to C7 as stated: the line `SUN_DIR:Op x` is not of the
claimed shape (the prefix is not followed only by non-whitespace characters),
yet `parseSunDirection` accepts it and yields the token `Op` — `sscanf`'s
`%31s` stops at the first whitespace and ignores the rest of the line. -/
theorem claim_C7_counterexample :
    parseSunDirection "SUN_DIR:Op x".data = some "Op".data
    ∧ ¬ claimedLineShape "SUN_DIR:Op x".data := by
  refine ⟨by decide, ?_⟩
  rintro ⟨tok, heq, hne, hlen, hns⟩
  have htok : "Op x".data = tok := by
    have h2 : "SUN_DIR:".data ++ "Op x".data = "SUN_DIR:".data ++ tok := by
      rw [← heq]
      decide
    exact List.append_cancel_left h2
  have hmem : ' ' ∈ tok := by rw [← htok]; decide
  exact absurd (hns ' ' hmem) (by decide)

/-- C7 (amended): `parseSunDirection` accepts exactly the lines that start
with the literal prefix `SUN_DIR:` followed — possibly after whitespace — by
at least one non-whitespace character; it yields the first whitespace-delimited
token truncated to at most 31 characters and ignores anything after it. Lines
without the prefix, or with nothing but whitespace after it, yield no command
(`none`, not an error), every yielded token is bounded by 31 characters (no
buffer overflow), and `SUN_DIR:` followed by 40 `x`s yields the 31-character
truncated token. -/
theorem claim_C7_parser_amended :
    (∀ tok junk : List Char, tok ≠ [] → tok.length ≤ 31 →
      (∀ c ∈ tok, isSpaceChar c = false) →
      (junk = [] ∨ ∃ c r, junk = c :: r ∧ isSpaceChar c = true) →
      parseSunDirection ("SUN_DIR:".data ++ (tok ++ junk)) = some tok)
    ∧ (∀ line : List Char, (∀ rest, line ≠ "SUN_DIR:".data ++ rest) →
        parseSunDirection line = none)
    ∧ (∀ ws : List Char, (∀ c ∈ ws, isSpaceChar c = true) →
        parseSunDirection ("SUN_DIR:".data ++ ws) = none)
    ∧ (∀ (line t : List Char), parseSunDirection line = some t → t.length ≤ 31)
    ∧ parseSunDirection (stripLine "SUN_DIR:Op\n".data) = some "Op".data
    ∧ parseSunDirection (stripLine "SUN_DIR:Ned\n".data) = some "Ned".data
    ∧ parseSunDirection (stripLine "garbage\n".data) = none
    ∧ parseSunDirection ("SUN_DIR:".data ++ List.replicate 40 'x')
        = some (List.replicate 31 'x') := by
  refine ⟨?_, ?_, ?_, ?_, by decide, by decide, by decide, by decide⟩
  · intro tok junk hne hlen hns hjunk
    unfold parseSunDirection
    rw [dropPrefixCh_append]
    match htok : tok, hne with
    | t :: tok', _ =>
      have hts : isSpaceChar t = false := hns t (by simp)
      simp only [List.cons_append, List.dropWhile_cons, hts, Bool.false_eq_true, if_false]
      rw [← List.cons_append,
          takeWhile_append_stop _ (t :: tok') junk
            (by intro c hc; simp [hns c hc])
            (by rcases hjunk with h | ⟨c, r, hr, hc⟩
                · exact Or.inl h
                · exact Or.inr ⟨c, r, hr, by simp [hc]⟩),
          List.take_of_length_le hlen]
      simp
  · intro line hno
    unfold parseSunDirection
    match h : dropPrefixCh "SUN_DIR:".data line with
    | none => rfl
    | some r => exact absurd (dropPrefixCh_eq_some _ _ _ h) (hno r)
  · intro ws hws
    simp only [parseSunDirection, dropPrefixCh_append, dropWhile_of_all _ ws hws]
    rfl
  · intro line t h
    simp only [parseSunDirection] at h
    match hd : dropPrefixCh "SUN_DIR:".data line with
    | none => rw [hd] at h; exact absurd h (by simp)
    | some rest =>
      rw [hd] at h
      dsimp only at h
      by_cases he : ((rest.dropWhile fun c => isSpaceChar c).takeWhile
          fun c => !isSpaceChar c).take 31 = []
      · rw [if_pos he] at h; exact absurd h (by simp)
      · rw [if_neg he] at h
        have := Option.some_inj.mp h
        rw [← this, List.length_take]
        omega

/-- Witness for C7 (amended) at the token `Op` with no trailing content. -/
theorem claim_C7_parser_amended_witness :
    parseSunDirection ("SUN_DIR:".data ++ ("Op".data ++ [])) = some "Op".data :=
  claim_C7_parser_amended.1 "Op".data [] (by decide) (by decide) (by decide) (Or.inl rfl)

/-! ### Helper lemmas: probe and cleanup -/

theorem foldl_devErase_gpio :
    ∀ (l : List Nat) (s : ProbeState),
      ((l.foldl (fun st j => { st with devicesCreated := st.devicesCreated.erase j,
                                       cdevsAdded := st.cdevsAdded.erase j }) s).servoOwned
          = s.servoOwned)
      ∧ ((l.foldl (fun st j => { st with devicesCreated := st.devicesCreated.erase j,
                                         cdevsAdded := st.cdevsAdded.erase j }) s).stepperOwned
          = s.stepperOwned) := by
  intro l
  induction l with
  | nil => intro s; exact ⟨rfl, rfl⟩
  | cons x l ih => intro s; exact ih _

theorem cleanup_cdev_gpio (i : Int) (s : ProbeState) :
    (cleanup_cdev i s).servoOwned = s.servoOwned
    ∧ (cleanup_cdev i s).stepperOwned = s.stepperOwned := by
  unfold cleanup_cdev
  exact foldl_devErase_gpio _ s

theorem cleanup_cdev_neg_one (s : ProbeState) :
    cleanup_cdev (-1) s = { s with classExists := false, regionAllocated := false } := rfl

theorem foldl_stepErase (l : List Nat) :
    ∀ s : ProbeState,
      l.foldl (fun st j => { st with stepperOwned := st.stepperOwned.erase j }) s
        = { s with stepperOwned := l.foldl (fun L j => L.erase j) s.stepperOwned } := by
  induction l with
  | nil => intro s; rfl
  | cons x l ih => intro s; rw [List.foldl_cons, ih]; rfl

theorem cleanup_gpio_eq (i : Nat) (s : ProbeState) :
    cleanup_gpio i s =
      { s with servoOwned := false,
               stepperOwned :=
                 (List.range i).reverse.foldl (fun L j => L.erase j) s.stepperOwned,
               classExists := false, regionAllocated := false } := by
  unfold cleanup_gpio
  rw [foldl_stepErase]
  rfl

theorem erase_range_le_four :
    ∀ i : Nat, i < 4 →
      (List.range i).reverse.foldl (fun L j => L.erase j) (List.range i) = [] := by decide

theorem addDevs_all_ok (env : ProbeEnv) (s : ProbeState)
    (h : ∀ i, i < 5 → env.cdevRet.getD i 0 = 0) :
    addDevs env 5 0 s =
      .inr { s with cdevsAdded := s.cdevsAdded ++ [0, 1, 2, 3, 4],
                    devicesCreated := s.devicesCreated ++ [0, 1, 2, 3, 4] } := by
  have h0 := h 0 (by norm_num)
  have h1 := h 1 (by norm_num)
  have h2 := h 2 (by norm_num)
  have h3 := h 3 (by norm_num)
  have h4 := h 4 (by norm_num)
  simp only [List.getD_eq_getElem?_getD] at h0 h1 h2 h3 h4
  simp [addDevs, h0, h1, h2, h3, h4]

theorem reqSteppers_inl (env : ProbeEnv) :
    ∀ (fuel i : Nat) (s : ProbeState) (e : Int) (j : Nat) (s' : ProbeState),
      reqSteppers env fuel i s = .inl (e, j, s') →
      i ≤ j ∧ j < i + fuel ∧ e = env.stepperRet.getD j 0 ∧ e ≠ 0 ∧
        (∀ m, i ≤ m → m < j → env.stepperRet.getD m 0 = 0) ∧
        s' = { s with stepperOwned := s.stepperOwned ++ List.range' i (j - i) } := by
  intro fuel
  induction fuel with
  | zero => intro i s e j s' h; exact absurd h (by simp [reqSteppers])
  | succ fuel ih =>
    intro i s e j s' h
    simp only [reqSteppers] at h
    by_cases h0 : env.stepperRet.getD i 0 ≠ 0
    · rw [if_pos h0] at h
      have h' : (env.stepperRet.getD i 0, i, s) = (e, j, s') := Sum.inl.inj h
      obtain ⟨he, hj, hs⟩ : env.stepperRet.getD i 0 = e ∧ i = j ∧ s = s' := by
        simpa [Prod.ext_iff] using h'
      subst hj
      refine ⟨le_refl i, by omega, he.symm, he ▸ h0, fun m hm1 hm2 => by omega, ?_⟩
      rw [← hs]
      simp
    · push_neg at h0
      rw [if_neg (by simpa using h0)] at h
      obtain ⟨hij, hlt, he, hne, hmid, hs⟩ := ih (i+1) _ e j s' h
      refine ⟨by omega, by omega, he, hne, ?_, ?_⟩
      · intro m hm1 hm2
        by_cases hmi : m = i
        · subst hmi; exact h0
        · exact hmid m (by omega) hm2
      · rw [hs]
        have hji : j - i = (j - (i+1)) + 1 := by omega
        rw [hji, List.range'_succ]
        simp

theorem reqSteppers_inr (env : ProbeEnv) :
    ∀ (fuel i : Nat) (s s' : ProbeState), reqSteppers env fuel i s = .inr s' →
      ∀ j, i ≤ j → j < i + fuel → env.stepperRet.getD j 0 = 0 := by
  intro fuel
  induction fuel with
  | zero => intro i s s' _ j hj1 hj2; omega
  | succ fuel ih =>
    intro i s s' h j hj1 hj2
    simp only [reqSteppers] at h
    by_cases h0 : env.stepperRet.getD i 0 ≠ 0
    · rw [if_pos h0] at h
      exact absurd h (by simp)
    · push_neg at h0
      rw [if_neg (by simpa using h0)] at h
      by_cases hji : j = i
      · subst hji; exact h0
      · exact ih (i+1) _ s' h j (by omega) (by omega)

/-! ### Claims C1, C10: attach failure paths -/

/-- C1: for every attach in which any of the 5 exclusive line requests fails
(the servo request, or any stepper request — all earlier stages succeeding),
the probe returns a nonzero error and the driver owns zero GPIO lines: the
servo line is not owned and the set of owned stepper lines is empty. -/
theorem claim_C1_atomic_pin_group (env : ProbeEnv)
    (h1 : env.allocRet = 0) (h2 : env.classRet = 0)
    (h3 : ∀ i, i < 5 → env.cdevRet.getD i 0 = 0)
    (h4 : env.servoRet ≠ 0 ∨ ∃ i, i < 4 ∧ env.stepperRet.getD i 0 ≠ 0) :
    (plat_drv_probe env).1 ≠ 0 ∧ (plat_drv_probe env).2.servoOwned = false
    ∧ (plat_drv_probe env).2.stepperOwned = []
    ∧ linesOwned (plat_drv_probe env).2 = 0 := by
  have hmain : (plat_drv_probe env).1 ≠ 0 ∧ (plat_drv_probe env).2.servoOwned = false
      ∧ (plat_drv_probe env).2.stepperOwned = [] := by
    unfold plat_drv_probe
    rw [if_neg (by simp [h1]), if_neg (by simp [h2])]
    simp only [probeInit]
    rw [addDevs_all_ok env _ h3]
    dsimp only
    by_cases hs : env.servoRet ≠ 0
    · rw [if_pos hs]
      dsimp only
      refine ⟨hs, ?_, ?_⟩
      · rw [(cleanup_cdev_gpio _ _).1]
      · rw [(cleanup_cdev_gpio _ _).2]
    · push_neg at hs
      rw [if_neg (by simp [hs])]
      simp only [List.nil_append]
      rcases h4 with hserv | ⟨i0, hi0, hne0⟩
      · exact absurd hs hserv
      · cases hreq : reqSteppers env 4 0
            ⟨true, true, [0, 1, 2, 3, 4], [0, 1, 2, 3, 4], true, []⟩ with
        | inl x =>
          obtain ⟨e, j, s'⟩ := x
          dsimp only
          obtain ⟨hij, hlt, he, hne, hmid, hs'⟩ := reqSteppers_inl env 4 0 _ e j s' hreq
          have hso : s'.stepperOwned = List.range j := by
            rw [hs']
            simp [List.range_eq_range']
          refine ⟨hne, ?_, ?_⟩
          · rw [cleanup_gpio_eq]
          · rw [cleanup_gpio_eq]
            dsimp only
            rw [hso]
            exact erase_range_le_four j (by omega)
        | inr s5 =>
          exact absurd (reqSteppers_inr env 4 0 _ s5 hreq i0 (by omega) (by omega)) hne0
  refine ⟨hmain.1, hmain.2.1, hmain.2.2, ?_⟩
  unfold linesOwned
  rw [hmain.2.1, hmain.2.2]
  rfl

/-- Witness for C1: servo GPIO request fails with `-EBUSY` after everything
else succeeded; zero lines owned afterwards. -/
theorem claim_C1_atomic_pin_group_witness :
    (plat_drv_probe ⟨0, 0, [], -16, []⟩).1 ≠ 0
    ∧ (plat_drv_probe ⟨0, 0, [], -16, []⟩).2.servoOwned = false
    ∧ (plat_drv_probe ⟨0, 0, [], -16, []⟩).2.stepperOwned = []
    ∧ linesOwned (plat_drv_probe ⟨0, 0, [], -16, []⟩).2 = 0 :=
  claim_C1_atomic_pin_group ⟨0, 0, [], -16, []⟩ rfl rfl (by decide) (Or.inl (by decide))

/-- C10: when a stepper GPIO request fails during attach (all five device
endpoints having been created and the servo GPIO acquired), the probe returns
that error with all GPIO lines released, the class destroyed and the region
unregistered — but none of the five character-device endpoints is destroyed:
the endpoint-teardown loop at `cleanup_cdev` runs zero times because the GPIO
release loop left `i = -1`. -/
theorem claim_C10_endpoint_leak (env : ProbeEnv) (k : Nat)
    (h1 : env.allocRet = 0) (h2 : env.classRet = 0)
    (h3 : ∀ i, i < 5 → env.cdevRet.getD i 0 = 0)
    (hs : env.servoRet = 0) (hk : k < 4)
    (hkf : env.stepperRet.getD k 0 ≠ 0)
    (hbefore : ∀ j, j < k → env.stepperRet.getD j 0 = 0) :
    (plat_drv_probe env).1 = env.stepperRet.getD k 0
    ∧ (plat_drv_probe env).2.devicesCreated = [0, 1, 2, 3, 4]
    ∧ (plat_drv_probe env).2.cdevsAdded = [0, 1, 2, 3, 4]
    ∧ (plat_drv_probe env).2.classExists = false
    ∧ (plat_drv_probe env).2.regionAllocated = false
    ∧ (plat_drv_probe env).2.servoOwned = false
    ∧ (plat_drv_probe env).2.stepperOwned = [] := by
  unfold plat_drv_probe
  rw [if_neg (by simp [h1]), if_neg (by simp [h2])]
  simp only [probeInit]
  rw [addDevs_all_ok env _ h3]
  dsimp only
  rw [if_neg (by simp [hs])]
  simp only [List.nil_append]
  cases hreq : reqSteppers env 4 0
      ⟨true, true, [0, 1, 2, 3, 4], [0, 1, 2, 3, 4], true, []⟩ with
  | inl x =>
    obtain ⟨e, j, s'⟩ := x
    dsimp only
    obtain ⟨hij, hlt, he, hne, hmid, hs'⟩ := reqSteppers_inl env 4 0 _ e j s' hreq
    have hjk : j = k := by
      by_contra hne2
      rcases Nat.lt_or_ge j k with hlt2 | hge2
      · exact hne (he.symm ▸ hbefore j hlt2)
      · exact hkf (hmid k (by omega) (by omega))
    subst hjk
    have hso : s'.stepperOwned = List.range j := by
      rw [hs']
      simp [List.range_eq_range']
    refine ⟨he, ?_, ?_, ?_, ?_, ?_, ?_⟩ <;> rw [cleanup_gpio_eq]
    · simp [hs']
    · simp [hs']
    · dsimp only
      rw [hso]
      exact erase_range_le_four j (by omega)
  | inr s5 =>
    exact absurd (reqSteppers_inr env 4 0 _ s5 hreq k (by omega) (by omega)) hkf

/-- Witness for C10: the third stepper request fails with `-EBUSY`; the five
endpoints remain while class and region are gone and no GPIO is owned. -/
theorem claim_C10_endpoint_leak_witness :
    (plat_drv_probe ⟨0, 0, [], 0, [0, 0, -16, 0]⟩).1 = -16
    ∧ (plat_drv_probe ⟨0, 0, [], 0, [0, 0, -16, 0]⟩).2.devicesCreated = [0, 1, 2, 3, 4]
    ∧ (plat_drv_probe ⟨0, 0, [], 0, [0, 0, -16, 0]⟩).2.cdevsAdded = [0, 1, 2, 3, 4]
    ∧ (plat_drv_probe ⟨0, 0, [], 0, [0, 0, -16, 0]⟩).2.classExists = false
    ∧ (plat_drv_probe ⟨0, 0, [], 0, [0, 0, -16, 0]⟩).2.regionAllocated = false
    ∧ (plat_drv_probe ⟨0, 0, [], 0, [0, 0, -16, 0]⟩).2.servoOwned = false
    ∧ (plat_drv_probe ⟨0, 0, [], 0, [0, 0, -16, 0]⟩).2.stepperOwned = [] := by
  have h := claim_C10_endpoint_leak ⟨0, 0, [], 0, [0, 0, -16, 0]⟩ 2 rfl rfl (by decide) rfl
    (by decide) (by decide) (by decide)
  exact h
